import Mathlib

/-!
# asprintf / vasprintf

A shallow embedding of `src/asprintf.c` and a verification of its contract.

`vasprintf` measures the output with `vsnprintf(NULL, 0, fmt, cp)` on a copy of
the argument list, allocates `size + 1` bytes with `malloc`, formats into the
new buffer with a second `vsnprintf`, and releases the buffer when that second
pass fails.  `asprintf` is the variadic wrapper around it.

The two C library functions the code calls, `vsnprintf` and `malloc`, are not
part of the repository.  They are parameters of the embedding (`Libc`):
every theorem about the control flow of `vasprintf` holds for every such
library.  A library that follows the contract of section 4.3 of the
specification is built from a renderer by `libcOf`, and `cRender` is a
renderer for the fragment `%%`, `%d`, `%s`, `%c`, `%n` of the template
language.

Data model (LP64): `int` is 32 bits and its arithmetic wraps (two's
complement), `size_t` is 64 bits, a pointer is a natural number and `0` is
`NULL`, text is a list of `Char` and the terminator is the character with
code 0.  The allocator never grants a request above `PTRDIFF_MAX`.
-/

namespace Asprintf

/-! ## Machine integers -/

/-- Largest value of the C type `int` (32 bits). -/
def INT_MAX : Int := 2147483647

/-- Smallest value of the C type `int` (32 bits). -/
def INT_MIN : Int := -2147483648

/-- Largest size of an object: a request above it is refused by every allocator. -/
def PTRDIFF_MAX : Nat := 9223372036854775807

/-- Result of an `int` computation: the mathematical value reduced to 32 bits,
two's complement. -/
def wrapInt (x : Int) : Int := (x + 2147483648) % 4294967296 - 2147483648

/-- Conversion of an `int` to `size_t` (64 bits): reduction modulo `2^64`. -/
def toSizeT (x : Int) : Nat := (x % 18446744073709551616).toNat

/-- The string terminator. -/
def NUL : Char := Char.ofNat 0

/-! ## The heap -/

/-- One allocated block: its address, the size that was requested, and the
bytes that have been written at its start (the bytes after them are
indeterminate). -/
structure Block where
  addr : Nat
  size : Nat
  bytes : List Char
deriving DecidableEq, Repr

/-- The heap as explicit state: the live blocks, and the history of what was
asked of the allocator (latest first). -/
structure Heap where
  live : List Block
  requests : List Nat
  released : List Nat
deriving DecidableEq, Repr

/-- The heap with nothing allocated. -/
def Heap.empty : Heap := ⟨[], [], []⟩

/-- The call `malloc(n)`.  The request is recorded.  A request above `PTRDIFF_MAX`
is refused; otherwise the allocator's policy `pick` either refuses or names
an address, which must be non-null and not the address of a live block.
Returns the pointer (`0` on failure) and the new heap. -/
def malloc (pick : Heap → Nat → Option Nat) (h : Heap) (n : Nat) : Nat × Heap :=
  let h1 : Heap := { h with requests := n :: h.requests }
  if PTRDIFF_MAX < n then (0, h1)
  else
    match pick h n with
    | none => (0, h1)
    | some a =>
      if a = 0 ∨ a ∈ h.live.map Block.addr then (0, h1)
      else (a, { h1 with live := ⟨a, n, []⟩ :: h1.live })

/-- The call `free(p)`: the block at `p` is no longer live, and the release is
recorded. -/
def free (h : Heap) (p : Nat) : Heap :=
  { h with live := List.filter (fun b => b.addr ≠ p) h.live, released := p :: h.released }

/-- Bytes `out` written from the start of the block at `p`. -/
def store (h : Heap) (p : Nat) (out : List Char) : Heap :=
  let put : Block → Block := fun b =>
    if b.addr = p then { b with bytes := out ++ b.bytes.drop out.length } else b
  { h with live := List.map put h.live }

/-- The bytes written at the start of the live block at `p`, if there is one. -/
def bufferAt (h : Heap) (p : Nat) : Option (List Char) :=
  (h.live.find? (fun b => b.addr = p)).map Block.bytes

/-- The live block at `p`, if there is one. -/
def blockAt (h : Heap) (p : Nat) : Option Block :=
  h.live.find? (fun b => b.addr = p)

/-- C `strlen`: the number of bytes before the first terminator (`none` when
there is no terminator among the bytes). -/
def strlen : List Char → Option Nat
  | [] => none
  | c :: cs => if c = NUL then some 0 else (strlen cs).map (· + 1)

/-! ## The C library as a parameter -/

/-- What one call of `vsnprintf` does: the `int` it returns, the bytes it
stores at the start of the destination (none when the capacity is 0), the
argument list as the call leaves it (the values not yet read), and the
environment afterwards (memory of the caller reached through `%n`, locale,
internal resources of the library). -/
structure PrimOut (W A : Type) where
  ret : Int
  stored : List Char
  rest : List A
  world : W

/-- The part of the C library that `asprintf.c` calls.
`vsnprintf w cap fmt ap` is `vsnprintf(dst, cap, fmt, ap)` run in environment
`w` (with `dst = NULL` when `cap = 0`); it returns an `int`.
`pick` is the policy of the allocator. -/
structure Libc (W A : Type) where
  vsnprintf : W → Nat → List Char → List A → PrimOut W A
  pick : Heap → Nat → Option Nat
  ret_int : ∀ w cap fmt ap,
    INT_MIN ≤ (vsnprintf w cap fmt ap).ret ∧ (vsnprintf w cap fmt ap).ret ≤ INT_MAX

/-- One recorded call of `vsnprintf`: destination, capacity, template and the
argument list it was given. -/
structure Call (A : Type) where
  dst : Nat
  cap : Nat
  fmt : List Char
  args : List A

/-- Program state around a call of `vasprintf`: the caller's output slot
`*strp`, the heap, the environment of the library, and the calls of
`vsnprintf` made so far (latest first). -/
structure State (W A : Type) where
  slot : Nat
  heap : Heap
  world : W
  calls : List (Call A)

/-! ## The program -/

/-- The function `vasprintf` of `src/asprintf.c`.
Returns the `int` result and the state after the call. -/
def vasprintf {W A : Type} (L : Libc W A) (st : State W A) (fmt : List Char) (ap : List A) :
    Int × State W A :=
  -- va_copy(cp, ap);
  let cp := ap
  -- size = vsnprintf(NULL, 0, fmt, cp);
  let m := L.vsnprintf st.world 0 fmt cp
  let size := m.ret
  let st1 : State W A := { st with world := m.world, calls := ⟨0, 0, fmt, cp⟩ :: st.calls }
  -- va_end(cp);
  if size < 0 then
    (-1, st1)
  else
    -- *strp = malloc(size + 1);
    let n := toSizeT (wrapInt (size + 1))
    let a := malloc L.pick st1.heap n
    let st2 : State W A := { st1 with slot := a.1, heap := a.2 }
    if st2.slot = 0 then
      (-1, st2)
    else
      -- res = vsnprintf(*strp, size + 1, fmt, ap);
      let r := L.vsnprintf st2.world n fmt ap
      let res := r.ret
      let st3 : State W A :=
        { st2 with world := r.world, heap := store st2.heap st2.slot r.stored,
                   calls := ⟨st2.slot, n, fmt, ap⟩ :: st2.calls }
      if res < 0 then
        -- free(*strp);
        (-1, { st3 with heap := free st3.heap st3.slot })
      else
        (res, st3)

/-- The function `asprintf` of `src/asprintf.c`: `args` are the variadic
arguments after `fmt`, captured by `va_start`. -/
def asprintf {W A : Type} (L : Libc W A) (st : State W A) (fmt : List Char) (args : List A) :
    Int × State W A :=
  -- va_start(ap, fmt);
  let ap := args
  -- ret = vasprintf(s, fmt, ap);
  let ret := vasprintf L st fmt ap
  -- va_end(ap);
  ret

/-! ## A library that follows the contract of the format-measure primitive -/

/-- What a renderer produces for a template and an argument list: the complete
formatted text (`none` when the template is invalid for the arguments or a
conversion fails), the arguments it has not read, and the environment
afterwards. -/
structure Rendering (W A : Type) where
  text : Option (List Char)
  rest : List A
  world : W

/-- Modelled from the spec: the format-measure primitive (`vsnprintf` of the C
library, which is not under `src/`), section 4.3.  It renders the template; it
returns a negative value when rendering fails or when the length of the text
is not representable as an `int` (the case exercised by test 12 of
`src/test.c`); otherwise it returns the length the complete text has, and when
the capacity is at least 1 it stores as many characters as fit in
`cap - 1` bytes followed by the terminator. -/
def vsnprintfOf {W A : Type} (render : W → List Char → List A → Rendering W A)
    (w : W) (cap : Nat) (fmt : List Char) (ap : List A) : PrimOut W A :=
  let r := render w fmt ap
  match r.text with
  | none => ⟨-1, [], r.rest, r.world⟩
  | some t =>
    if INT_MAX < (t.length : Int) then ⟨-1, [], r.rest, r.world⟩
    else ⟨(t.length : Int), if cap = 0 then [] else t.take (cap - 1) ++ [NUL], r.rest, r.world⟩

/-! ## A renderer for a fragment of the template language -/

/-- An argument of a call: an `int`, a pointer to a string (given by the
characters before its terminator), or a pointer to the caller's `int` variable
number `i` (for `%n`). -/
inductive Arg where
  | int (n : Int)
  | str (s : List Char)
  | intPtr (i : Nat)
deriving DecidableEq, Repr

/-- The caller's `int` variables, by number. -/
abbrev World := Nat → Int

/-- Assignment to the caller's `int` variable number `i`. -/
def setInt (w : World) (i : Nat) (v : Int) : World := fun j => if j = i then v else w j

/-- One element of a template: a literal character or a directive. -/
inductive Item where
  | lit (c : Char)
  | pct
  | d
  | s
  | c
  | n
  | bad
deriving DecidableEq, Repr

/-- The directive that the character after `%` selects. -/
def directive (k : Char) : Item :=
  if k = '%' then Item.pct
  else if k = 'd' then Item.d
  else if k = 's' then Item.s
  else if k = 'c' then Item.c
  else if k = 'n' then Item.n
  else Item.bad

/-- A template (its characters before the terminator) split into literal
characters and directives. -/
def parse : List Char → List Item
  | [] => []
  | c :: cs =>
    if c = '%' then
      match cs with
      | [] => [Item.bad]
      | k :: ks => directive k :: parse ks
    else Item.lit c :: parse cs

/-- Signed decimal rendering of an integer, as `%d` prints it. -/
def decimal (n : Int) : List Char :=
  if n < 0 then '-' :: Nat.toDigits 10 n.natAbs else Nat.toDigits 10 n.natAbs

/-- The items rendered after the text `out`, reading the arguments in order.
`%n` stores the number of characters produced so far into the `int` its
argument points to.  A directive outside the fragment, a missing argument or
an argument of the wrong kind makes the rendering fail. -/
def emit : List Item → World → List Arg → List Char → Rendering World Arg
  | [], w, args, out => ⟨some out, args, w⟩
  | Item.lit c :: is, w, args, out => emit is w args (out ++ [c])
  | Item.pct :: is, w, args, out => emit is w args (out ++ ['%'])
  | Item.d :: is, w, Arg.int n :: args, out => emit is w args (out ++ decimal n)
  | Item.s :: is, w, Arg.str s :: args, out => emit is w args (out ++ s)
  | Item.c :: is, w, Arg.int n :: args, out =>
      emit is w args (out ++ [Char.ofNat (n % 256).toNat])
  | Item.n :: is, w, Arg.intPtr i :: args, out =>
      emit is (setInt w i (wrapInt out.length)) args out
  | _ :: _, w, args, _ => ⟨none, args, w⟩

/-- Modelled from the spec: the conversions of the format-measure primitive
(not under `src/`) for literal text, `%%`, `%d`, `%s` and the store-count
directive `%n`, as section 4.3 and the scenarios of section 8 describe them,
and for `%c` (used by test 28 of `src/test.c`), which writes its `int`
argument converted to `unsigned char`. -/
def cRender (w : World) (fmt : List Char) (ap : List Arg) : Rendering World Arg :=
  emit (parse fmt) w ap []

/-- The library built from a renderer through `vsnprintfOf` and an allocator policy. -/
def libcOf {W A : Type} (render : W → List Char → List A → Rendering W A)
    (pick : Heap → Nat → Option Nat) : Libc W A where
  vsnprintf := vsnprintfOf render
  pick := pick
  ret_int := by
    intro w cap fmt ap
    simp only [vsnprintfOf]
    split
    · simp [INT_MIN, INT_MAX]
    · split
      · simp [INT_MIN, INT_MAX]
      · rename_i hl
        simp only [INT_MIN, INT_MAX] at *
        omega

/-- An allocator policy that grants every request, at an address above every
live block. -/
def bumpPick (h : Heap) (_n : Nat) : Option Nat :=
  some ((h.live.map Block.addr).foldr max 0 + 1)

/-- An allocator policy that refuses every request. -/
def refusePick (_h : Heap) (_n : Nat) : Option Nat := none

/-- A renderer that copies the template and needs one unit of an internal
resource of the library per run: it fails when none is left. -/
def budgetRender (w : Nat) (fmt : List Char) (ap : List Arg) : Rendering Nat Arg :=
  ⟨if w = 0 then none else some fmt, ap, w - 1⟩

/-- The state before a first call: output slot `p`, empty heap, environment `w`. -/
def State.init {W A : Type} (p : Nat) (w : W) : State W A := ⟨p, Heap.empty, w, []⟩

/-! ## The steps of one call, named -/

/-- The measuring pass of the call `vasprintf(strp, fmt, ap)` from state `st`. -/
def measurePass {W A : Type} (L : Libc W A) (st : State W A) (fmt : List Char) (ap : List A) :
    PrimOut W A :=
  L.vsnprintf st.world 0 fmt ap

/-- The value of `size + 1` that the call passes to `malloc` and, as capacity,
to the writing pass. -/
def requestSize {W A : Type} (L : Libc W A) (st : State W A) (fmt : List Char) (ap : List A) :
    Nat :=
  toSizeT (wrapInt ((measurePass L st fmt ap).ret + 1))

/-- The pointer and heap that `malloc(size + 1)` gives in the call. -/
def allocation {W A : Type} (L : Libc W A) (st : State W A) (fmt : List Char) (ap : List A) :
    Nat × Heap :=
  malloc L.pick st.heap (requestSize L st fmt ap)

/-- The writing pass of the call, run after the measuring pass. -/
def writePass {W A : Type} (L : Libc W A) (st : State W A) (fmt : List Char) (ap : List A) :
    PrimOut W A :=
  L.vsnprintf (measurePass L st fmt ap).world (requestSize L st fmt ap) fmt ap

/-- The record of the measuring call. -/
def measureCall {A : Type} (fmt : List Char) (ap : List A) : Call A := ⟨0, 0, fmt, ap⟩

/-- The addresses of the live blocks. -/
def Heap.addrs (h : Heap) : List Nat := h.live.map Block.addr

/-! ## Concrete inputs -/

/-- Caller memory in which every `int` variable holds 0. -/
def w0 : World := fun _ => 0

/-- The fragment renderer behind the contract primitive, with allocator policy `pick`. -/
def cLibc (pick : Heap → Nat → Option Nat) : Libc World Arg := libcOf cRender pick

/-- The literal part of the template of test 12 of `src/test.c`. -/
def largeLit : List Char := "Large string: ".toList

/-- The template of test 12: `"Large string: %s"`. -/
def largeFmt : List Char := largeLit ++ ['%', 's']

/-- The string of `k` characters `'A'`. -/
def manyA (k : Nat) : List Char := List.replicate k 'A'

/-- The string argument of test 12: `INT_MAX - 1` characters `'A'`. -/
def largeArg : List Char := manyA 2147483646

/-- A string with which the template of test 12 renders to exactly `INT_MAX`
characters. -/
def fillArg : List Char := manyA 2147483633

/-- A directive-free template of `INT_MAX + 1` characters. -/
def hugeFmt : List Char := manyA 2147483648

/-- A library whose formatter copies the template and needs one unit of an
internal resource per run. -/
def budgetLibc (pick : Heap → Nat → Option Nat) : Libc Nat Arg := libcOf budgetRender pick

/-! ## Machine arithmetic -/

theorem wrapInt_of_range (x : Int) (h1 : INT_MIN ≤ x) (h2 : x ≤ INT_MAX) : wrapInt x = x := by
  unfold wrapInt
  unfold INT_MIN at h1
  unfold INT_MAX at h2
  omega

theorem requestSize_eq {W A : Type} (L : Libc W A) (st : State W A) (fmt : List Char)
    (ap : List A) (h0 : 0 ≤ (measurePass L st fmt ap).ret)
    (h1 : (measurePass L st fmt ap).ret < INT_MAX) :
    requestSize L st fmt ap = ((measurePass L st fmt ap).ret + 1).toNat := by
  unfold requestSize
  rw [wrapInt_of_range _ (by unfold INT_MIN; omega) (by omega)]
  unfold toSizeT
  unfold INT_MAX at h1
  omega

theorem requestSize_at_max {W A : Type} (L : Libc W A) (st : State W A) (fmt : List Char)
    (ap : List A) (h : (measurePass L st fmt ap).ret = INT_MAX) :
    requestSize L st fmt ap = 18446744071562067968 := by
  unfold requestSize
  rw [h]
  decide

/-! ## The allocator -/

theorem malloc_requests (pick : Heap → Nat → Option Nat) (h : Heap) (n : Nat) :
    (malloc pick h n).2.requests = n :: h.requests := by
  unfold malloc
  simp only
  split
  · rfl
  · split
    · rfl
    · split <;> rfl

theorem malloc_released (pick : Heap → Nat → Option Nat) (h : Heap) (n : Nat) :
    (malloc pick h n).2.released = h.released := by
  unfold malloc
  simp only
  split
  · rfl
  · split
    · rfl
    · split <;> rfl

theorem malloc_refused (pick : Heap → Nat → Option Nat) (h : Heap) (n : Nat)
    (hr : PTRDIFF_MAX < n ∨ pick h n = none ∨
      ∃ a, pick h n = some a ∧ (a = 0 ∨ a ∈ h.live.map Block.addr)) :
    malloc pick h n = (0, { h with requests := n :: h.requests }) := by
  unfold malloc
  by_cases hn : PTRDIFF_MAX < n
  · simp only [if_pos hn]
  · rcases hr with hr | hr | ⟨a, hp, hc⟩
    · exact absurd hr hn
    · simp only [if_neg hn, hr]
    · simp only [if_neg hn, hp, if_pos hc]

theorem malloc_granted (pick : Heap → Nat → Option Nat) (h : Heap) (n a : Nat)
    (hn : ¬ PTRDIFF_MAX < n) (hp : pick h n = some a)
    (hc : ¬ (a = 0 ∨ a ∈ h.live.map Block.addr)) :
    malloc pick h n =
      (a, { h with requests := n :: h.requests, live := ⟨a, n, []⟩ :: h.live }) := by
  unfold malloc
  simp only [if_neg hn, hp, if_neg hc]

theorem malloc_cases (pick : Heap → Nat → Option Nat) (h : Heap) (n : Nat) :
    malloc pick h n = (0, { h with requests := n :: h.requests }) ∨
    ∃ a, a ≠ 0 ∧ a ∉ h.addrs ∧ n ≤ PTRDIFF_MAX ∧
      malloc pick h n =
        (a, { h with requests := n :: h.requests, live := ⟨a, n, []⟩ :: h.live }) := by
  by_cases hn : PTRDIFF_MAX < n
  · exact Or.inl (malloc_refused pick h n (Or.inl hn))
  · cases hp : pick h n with
    | none => exact Or.inl (malloc_refused pick h n (Or.inr (Or.inl hp)))
    | some a =>
      by_cases hc : a = 0 ∨ a ∈ h.live.map Block.addr
      · exact Or.inl (malloc_refused pick h n (Or.inr (Or.inr ⟨a, hp, hc⟩)))
      · refine Or.inr ⟨a, fun h0 => hc (Or.inl h0), fun hm => hc (Or.inr hm), not_lt.mp hn, ?_⟩
        exact malloc_granted pick h n a hn hp hc

theorem malloc_null (pick : Heap → Nat → Option Nat) (h : Heap) (n : Nat)
    (h0 : (malloc pick h n).1 = 0) : (malloc pick h n).2.live = h.live := by
  rcases malloc_cases pick h n with e | ⟨a, ha, _, _, e⟩
  · rw [e]
  · rw [e] at h0
    exact absurd h0 ha

theorem malloc_ok (pick : Heap → Nat → Option Nat) (h : Heap) (n : Nat)
    (h0 : (malloc pick h n).1 ≠ 0) :
    (malloc pick h n).2.live = ⟨(malloc pick h n).1, n, []⟩ :: h.live ∧
      (malloc pick h n).1 ∉ h.addrs ∧ n ≤ PTRDIFF_MAX := by
  rcases malloc_cases pick h n with e | ⟨a, _, hf, hn, e⟩
  · rw [e] at h0
    exact absurd rfl h0
  · rw [e]
    exact ⟨rfl, hf, hn⟩

/-! ## Store, release and read of a fresh block -/

theorem filter_addr_ne (l : List Block) (p : Nat) (hp : p ∉ l.map Block.addr) :
    List.filter (fun b => b.addr ≠ p) l = l := by
  rw [List.filter_eq_self]
  intro b hb
  have hne : b.addr ≠ p := fun e => hp (List.mem_map.mpr ⟨b, hb, e⟩)
  simpa using hne

theorem map_put_fresh (l : List Block) (p : Nat) (out : List Char)
    (hp : p ∉ l.map Block.addr) :
    List.map (fun b : Block =>
      if b.addr = p then { b with bytes := out ++ b.bytes.drop out.length } else b) l = l := by
  induction l with
  | nil => rfl
  | cons b bs ih =>
    have hb : b.addr ≠ p := fun e => hp (by simp [e])
    have hbs : p ∉ bs.map Block.addr := fun m => hp (by simp at m ⊢; exact Or.inr m)
    rw [List.map_cons, ih hbs, if_neg hb]

/-- Writing `out` into a block that has just been allocated at the fresh
address `p`. -/
theorem store_fresh (h : Heap) (l : List Block) (p n : Nat) (out : List Char)
    (hl : h.live = ⟨p, n, []⟩ :: l) (hp : p ∉ l.map Block.addr) :
    (store h p out).live = ⟨p, n, out⟩ :: l ∧
      (store h p out).requests = h.requests ∧ (store h p out).released = h.released := by
  refine ⟨?_, rfl, rfl⟩
  show List.map (fun b : Block =>
      if b.addr = p then { b with bytes := out ++ b.bytes.drop out.length } else b) h.live = _
  rw [hl, List.map_cons, map_put_fresh l p out hp, if_pos rfl]
  simp

theorem bufferAt_head (h : Heap) (l : List Block) (p n : Nat) (out : List Char)
    (hl : h.live = ⟨p, n, out⟩ :: l) : bufferAt h p = some out := by
  unfold bufferAt
  simp [hl]

theorem free_head (h : Heap) (l : List Block) (p n : Nat) (out : List Char)
    (hl : h.live = ⟨p, n, out⟩ :: l) (hp : p ∉ l.map Block.addr) :
    (free h p).live = l ∧ (free h p).released = p :: h.released ∧
      (free h p).requests = h.requests := by
  refine ⟨?_, rfl, rfl⟩
  show List.filter (fun b => b.addr ≠ p) h.live = l
  rw [hl, List.filter_cons_of_neg (by simp), filter_addr_ne l p hp]

/-! ## The four paths of `vasprintf` -/

/-- Path A: the measuring pass reports a negative value. -/
theorem vasprintf_measure_neg {W A : Type} (L : Libc W A) (st : State W A) (fmt : List Char)
    (ap : List A) (hm : (measurePass L st fmt ap).ret < 0) :
    vasprintf L st fmt ap =
      (-1, { st with world := (measurePass L st fmt ap).world,
                     calls := measureCall fmt ap :: st.calls }) := by
  unfold measurePass at hm
  unfold vasprintf measurePass measureCall
  simp only [if_pos hm]

/-- Path B: `malloc` returns `NULL`. -/
theorem vasprintf_alloc_null {W A : Type} (L : Libc W A) (st : State W A) (fmt : List Char)
    (ap : List A) (hm : 0 ≤ (measurePass L st fmt ap).ret)
    (ha : (allocation L st fmt ap).1 = 0) :
    vasprintf L st fmt ap =
      (-1, { slot := 0, heap := (allocation L st fmt ap).2,
             world := (measurePass L st fmt ap).world,
             calls := measureCall fmt ap :: st.calls }) := by
  unfold allocation requestSize measurePass at ha
  unfold measurePass at hm
  unfold vasprintf allocation requestSize measurePass measureCall
  simp only [if_neg (not_lt.mpr hm), ha, if_true]

/-- Path C: the writing pass reports a negative value. -/
theorem vasprintf_write_neg {W A : Type} (L : Libc W A) (st : State W A) (fmt : List Char)
    (ap : List A) (hm : 0 ≤ (measurePass L st fmt ap).ret)
    (ha : (allocation L st fmt ap).1 ≠ 0) (hw : (writePass L st fmt ap).ret < 0) :
    vasprintf L st fmt ap =
      (-1, { slot := (allocation L st fmt ap).1,
             heap := free (store (allocation L st fmt ap).2 (allocation L st fmt ap).1
               (writePass L st fmt ap).stored) (allocation L st fmt ap).1,
             world := (writePass L st fmt ap).world,
             calls := ⟨(allocation L st fmt ap).1, requestSize L st fmt ap, fmt, ap⟩ ::
               measureCall fmt ap :: st.calls }) := by
  unfold allocation requestSize measurePass at ha
  unfold writePass requestSize measurePass at hw
  unfold measurePass at hm
  unfold vasprintf allocation writePass requestSize measurePass measureCall
  simp only [if_neg (not_lt.mpr hm), if_neg ha, if_pos hw]

/-- Success: both passes report a non-negative value and `malloc` returns a
buffer. -/
theorem vasprintf_write_ok {W A : Type} (L : Libc W A) (st : State W A) (fmt : List Char)
    (ap : List A) (hm : 0 ≤ (measurePass L st fmt ap).ret)
    (ha : (allocation L st fmt ap).1 ≠ 0) (hw : 0 ≤ (writePass L st fmt ap).ret) :
    vasprintf L st fmt ap =
      ((writePass L st fmt ap).ret,
        { slot := (allocation L st fmt ap).1,
          heap := store (allocation L st fmt ap).2 (allocation L st fmt ap).1
            (writePass L st fmt ap).stored,
          world := (writePass L st fmt ap).world,
          calls := ⟨(allocation L st fmt ap).1, requestSize L st fmt ap, fmt, ap⟩ ::
            measureCall fmt ap :: st.calls }) := by
  unfold allocation requestSize measurePass at ha
  unfold writePass requestSize measurePass at hw
  unfold measurePass at hm
  unfold vasprintf allocation writePass requestSize measurePass measureCall
  simp only [if_neg (not_lt.mpr hm), if_neg ha, if_neg (not_lt.mpr hw)]

theorem asprintf_eq_vasprintf {W A : Type} (L : Libc W A) (st : State W A) (fmt : List Char)
    (args : List A) : asprintf L st fmt args = vasprintf L st fmt args := rfl

/-! ## The contract primitive -/

theorem vsnprintfOf_fits {W A : Type} (render : W → List Char → List A → Rendering W A)
    (w : W) (cap : Nat) (fmt : List Char) (ap : List A) (t : List Char)
    (ht : (render w fmt ap).text = some t) (hl : (t.length : Int) ≤ INT_MAX) :
    vsnprintfOf render w cap fmt ap =
      ⟨(t.length : Int), if cap = 0 then [] else t.take (cap - 1) ++ [NUL],
        (render w fmt ap).rest, (render w fmt ap).world⟩ := by
  unfold vsnprintfOf
  simp only [ht, if_neg (not_lt.mpr hl)]

theorem vsnprintfOf_overflow {W A : Type} (render : W → List Char → List A → Rendering W A)
    (w : W) (cap : Nat) (fmt : List Char) (ap : List A) (t : List Char)
    (ht : (render w fmt ap).text = some t) (hl : INT_MAX < (t.length : Int)) :
    vsnprintfOf render w cap fmt ap =
      ⟨-1, [], (render w fmt ap).rest, (render w fmt ap).world⟩ := by
  unfold vsnprintfOf
  simp only [ht, if_pos hl]

theorem vsnprintfOf_invalid {W A : Type} (render : W → List Char → List A → Rendering W A)
    (w : W) (cap : Nat) (fmt : List Char) (ap : List A)
    (ht : (render w fmt ap).text = none) :
    vsnprintfOf render w cap fmt ap =
      ⟨-1, [], (render w fmt ap).rest, (render w fmt ap).world⟩ := by
  unfold vsnprintfOf
  simp only [ht]

/-- A text followed by the terminator has the terminator at index `length`. -/
theorem terminator_at (t : List Char) : (t ++ [NUL])[t.length]? = some NUL := by
  simp

/-- For a text without terminator inside, followed by the terminator, `strlen`
is the length of the text. -/
theorem strlen_terminated (t : List Char) (h : NUL ∉ t) :
    strlen (t ++ [NUL]) = some t.length := by
  induction t with
  | nil => simp [strlen]
  | cons c cs ih =>
    have hc : c ≠ NUL := fun e => h (by simp [e])
    have hcs : NUL ∉ cs := fun m => h (by simp [m])
    simp [strlen, hc, ih hcs]

/-! ## The renderer of the fragment -/

theorem parse_cons_lit (c : Char) (cs : List Char) (hc : c ≠ '%') :
    parse (c :: cs) = Item.lit c :: parse cs := by
  cases cs with
  | nil => simp [parse, hc]
  | cons k ks => simp [parse, hc]

theorem parse_directive (k : Char) (ks : List Char) :
    parse ('%' :: k :: ks) = directive k :: parse ks := by
  simp [parse]

theorem parse_literal (l rest : List Char) (h : '%' ∉ l) :
    parse (l ++ rest) = l.map Item.lit ++ parse rest := by
  induction l with
  | nil => rfl
  | cons c cs ih =>
    have hc : c ≠ '%' := fun e => h (by simp [e])
    have hcs : '%' ∉ cs := fun m => h (by simp [m])
    show parse (c :: (cs ++ rest)) = Item.lit c :: (cs.map Item.lit ++ parse rest)
    rw [parse_cons_lit c _ hc, ih hcs]

theorem emit_literal (l : List Char) (is : List Item) (w : World) (args : List Arg)
    (out : List Char) :
    emit (l.map Item.lit ++ is) w args out = emit is w args (out ++ l) := by
  induction l generalizing out with
  | nil => simp
  | cons c cs ih => simp [emit, ih]

/-- A template without `%` is rendered as itself; no argument is read and the
environment is unchanged. -/
theorem cRender_literal (w : World) (fmt : List Char) (ap : List Arg) (h : '%' ∉ fmt) :
    cRender w fmt ap = ⟨some fmt, ap, w⟩ := by
  have e : parse fmt = fmt.map Item.lit := by
    have := parse_literal fmt [] h
    simpa [parse] using this
  have e2 : emit (fmt.map Item.lit) w ap [] = emit [] w ap fmt := by
    have := emit_literal fmt [] w ap []
    simpa using this
  unfold cRender
  rw [e, e2]
  rfl

/-- Literal text followed by a final `%n`: the text is the literal text, and
the count stored is its length. -/
theorem cRender_literal_n (w : World) (l : List Char) (i : Nat) (h : '%' ∉ l) :
    cRender w (l ++ ['%', 'n']) [Arg.intPtr i] =
      ⟨some l, [], setInt w i (wrapInt l.length)⟩ := by
  unfold cRender
  rw [parse_literal l _ h, emit_literal]
  simp [parse, directive, emit]

/-- The template `"%d %s"` with an `int` and a string. -/
theorem cRender_d_s (w : World) (n : Int) (s : List Char) :
    cRender w ['%', 'd', ' ', '%', 's'] [Arg.int n, Arg.str s] =
      ⟨some (decimal n ++ ' ' :: s), [], w⟩ := by
  simp [cRender, parse, directive, emit]

/-- Literal text followed by `%s`: the text is the literal text followed by
the string. -/
theorem cRender_literal_s (w : World) (l s : List Char) (h : '%' ∉ l) :
    cRender w (l ++ ['%', 's']) [Arg.str s] = ⟨some (l ++ s), [], w⟩ := by
  unfold cRender
  rw [parse_literal l _ h, emit_literal]
  simp [parse, directive, emit]

/-! ## Facts about the concrete inputs -/

theorem manyA_length (k : Nat) : (manyA k).length = k := by
  unfold manyA
  exact List.length_replicate k 'A'

theorem manyA_no_pct (k : Nat) : '%' ∉ manyA k := by
  unfold manyA
  intro h
  have := List.eq_of_mem_replicate h
  exact absurd this (by decide)

theorem largeLit_no_pct : '%' ∉ largeLit := by decide

theorem largeLit_length : largeLit.length = 14 := by decide

theorem largeArg_length : largeArg.length = 2147483646 := manyA_length 2147483646

theorem fillArg_length : fillArg.length = 2147483633 := manyA_length 2147483633

theorem hugeFmt_length : hugeFmt.length = 2147483648 := manyA_length 2147483648

theorem hugeFmt_no_pct : '%' ∉ hugeFmt := manyA_no_pct 2147483648

theorem measurePass_libcOf {W A : Type} (render : W → List Char → List A → Rendering W A)
    (pick : Heap → Nat → Option Nat) (st : State W A) (fmt : List Char) (ap : List A) :
    measurePass (libcOf render pick) st fmt ap = vsnprintfOf render st.world 0 fmt ap := rfl

/-- The measuring pass of test 12 fails: the text has more than `INT_MAX`
characters. -/
theorem measure_large (pick : Heap → Nat → Option Nat) (st : State World Arg) :
    (measurePass (cLibc pick) st largeFmt [Arg.str largeArg]).ret = -1 := by
  have ht := cRender_literal_s st.world largeLit largeArg largeLit_no_pct
  have hlen : INT_MAX < ((largeLit ++ largeArg).length : Int) := by
    rw [List.length_append, largeLit_length, largeArg_length]
    decide
  unfold cLibc largeFmt
  rw [measurePass_libcOf]
  rw [vsnprintfOf_overflow cRender st.world 0 _ _ (largeLit ++ largeArg) (by rw [ht]) hlen]

/-- The measuring pass of the template of test 12 with `fillArg` reports `INT_MAX`. -/
theorem measure_fill (pick : Heap → Nat → Option Nat) (st : State World Arg) :
    (measurePass (cLibc pick) st largeFmt [Arg.str fillArg]).ret = INT_MAX := by
  have ht := cRender_literal_s st.world largeLit fillArg largeLit_no_pct
  have hlen : ((largeLit ++ fillArg).length : Int) = INT_MAX := by
    rw [List.length_append, largeLit_length, fillArg_length]
    decide
  unfold cLibc largeFmt
  rw [measurePass_libcOf]
  rw [vsnprintfOf_fits cRender st.world 0 _ _ (largeLit ++ fillArg) (by rw [ht])
    (le_of_eq hlen)]
  exact hlen

/-- The measuring pass of a directive-free template of `INT_MAX + 1`
characters fails. -/
theorem measure_huge (pick : Heap → Nat → Option Nat) (st : State World Arg) :
    (measurePass (cLibc pick) st hugeFmt []).ret = -1 := by
  have ht := cRender_literal st.world hugeFmt [] hugeFmt_no_pct
  have hlen : INT_MAX < (hugeFmt.length : Int) := by
    rw [hugeFmt_length]
    decide
  unfold cLibc
  rw [measurePass_libcOf]
  rw [vsnprintfOf_overflow cRender st.world 0 _ _ hugeFmt (by rw [ht]) hlen]

/-! ## Measured length `INT_MAX` -/

/-- When the measuring pass reports `INT_MAX`, `size + 1` wraps to `INT_MIN`,
its conversion to `size_t` is `2^64 - 2^31`, and `malloc` refuses that
request. -/
theorem vasprintf_at_int_max {W A : Type} (L : Libc W A) (st : State W A) (fmt : List Char)
    (ap : List A) (h : (measurePass L st fmt ap).ret = INT_MAX) :
    vasprintf L st fmt ap =
      (-1, { slot := 0,
             heap := { st.heap with requests := 18446744071562067968 :: st.heap.requests },
             world := (measurePass L st fmt ap).world,
             calls := measureCall fmt ap :: st.calls }) := by
  have hreq := requestSize_at_max L st fmt ap h
  have hal : allocation L st fmt ap =
      (0, { st.heap with requests := 18446744071562067968 :: st.heap.requests }) := by
    unfold allocation
    rw [hreq]
    exact malloc_refused _ _ _ (Or.inl (by decide))
  have h0 : 0 ≤ (measurePass L st fmt ap).ret := by
    rw [h]
    decide
  rw [vasprintf_alloc_null L st fmt ap h0 (by rw [hal]), hal]

/-! ## Failure paths A and B -/

/-- C3 (failure path A): when the measuring pass returns any negative value,
`vasprintf` returns exactly -1, the output slot holds the value it held before
the call, the heap is the heap before the call (no allocation is requested,
nothing is released), and the only call of `vsnprintf` that is added to the
record is the measuring one, with capacity 0: the writing pass is not run. -/
theorem measure_failure_is_clean {W A : Type} (L : Libc W A) (st : State W A)
    (fmt : List Char) (ap : List A) (hm : (measurePass L st fmt ap).ret < 0) :
    (vasprintf L st fmt ap).1 = -1 ∧
      (vasprintf L st fmt ap).2.slot = st.slot ∧
      (vasprintf L st fmt ap).2.heap = st.heap ∧
      (vasprintf L st fmt ap).2.calls = measureCall fmt ap :: st.calls := by
  rw [vasprintf_measure_neg L st fmt ap hm]
  exact ⟨rfl, rfl, rfl, rfl⟩

/-- Witness of C3: test 12 of `src/test.c` (a text longer than `INT_MAX`), from
a state whose output slot is `NULL` and whose heap is empty. -/
theorem measure_failure_is_clean_witness :
    (measurePass (cLibc bumpPick) (State.init 0 w0) largeFmt [Arg.str largeArg]).ret < 0 ∧
      (vasprintf (cLibc bumpPick) (State.init 0 w0) largeFmt [Arg.str largeArg]).1 = -1 ∧
      (vasprintf (cLibc bumpPick) (State.init 0 w0) largeFmt [Arg.str largeArg]).2.slot = 0 ∧
      (vasprintf (cLibc bumpPick) (State.init 0 w0) largeFmt [Arg.str largeArg]).2.heap =
        Heap.empty ∧
      (vasprintf (cLibc bumpPick) (State.init 0 w0) largeFmt [Arg.str largeArg]).2.calls =
        [measureCall largeFmt [Arg.str largeArg]] :=
  have hm : (measurePass (cLibc bumpPick) (State.init 0 w0) largeFmt
      [Arg.str largeArg]).ret < 0 := by
    rw [measure_large]
    decide
  ⟨hm, measure_failure_is_clean (cLibc bumpPick) (State.init 0 w0) largeFmt
    [Arg.str largeArg] hm⟩

/-- C2, counterexample: the call of test 12 made with an output slot that holds
the stale pointer 7 fails with -1 and the slot still holds 7, not `NULL`. -/
theorem failure_keeps_stale_slot :
    (vasprintf (cLibc bumpPick) ⟨7, Heap.empty, w0, []⟩ largeFmt [Arg.str largeArg]).1 = -1 ∧
      (vasprintf (cLibc bumpPick) ⟨7, Heap.empty, w0, []⟩ largeFmt [Arg.str largeArg]).2.slot
        = 7 := by
  have hm : (measurePass (cLibc bumpPick) ⟨7, Heap.empty, w0, []⟩ largeFmt
      [Arg.str largeArg]).ret < 0 := by
    rw [measure_large]
    decide
  rw [vasprintf_measure_neg _ _ _ _ hm]
  exact ⟨rfl, rfl⟩

/-- C2, amended: a call that fails in the measuring pass returns -1 and leaves
in the output slot the value it held before the call (`NULL` when it was
`NULL`), with the heap unchanged; a call that fails at allocation returns -1
and leaves the output slot `NULL`, with the live blocks unchanged and nothing
released. -/
theorem failure_slot_state {W A : Type} (L : Libc W A) (st : State W A)
    (fmt : List Char) (ap : List A) :
    ((measurePass L st fmt ap).ret < 0 →
      (vasprintf L st fmt ap).1 = -1 ∧
      (vasprintf L st fmt ap).2.slot = st.slot ∧
      (st.slot = 0 → (vasprintf L st fmt ap).2.slot = 0) ∧
      (vasprintf L st fmt ap).2.heap = st.heap) ∧
    (0 ≤ (measurePass L st fmt ap).ret → (allocation L st fmt ap).1 = 0 →
      (vasprintf L st fmt ap).1 = -1 ∧
      (vasprintf L st fmt ap).2.slot = 0 ∧
      (vasprintf L st fmt ap).2.heap.live = st.heap.live ∧
      (vasprintf L st fmt ap).2.heap.released = st.heap.released) := by
  constructor
  · intro hm
    rw [vasprintf_measure_neg L st fmt ap hm]
    exact ⟨rfl, rfl, fun h => h, rfl⟩
  · intro hm ha
    rw [vasprintf_alloc_null L st fmt ap hm ha]
    exact ⟨rfl, rfl, malloc_null _ _ _ ha, malloc_released _ _ _⟩

/-- Witness of C2 amended: test 12 from a `NULL` slot (measurement fails), and
`"foo"` with an allocator that refuses (allocation fails). -/
theorem failure_slot_state_witness :
    ((vasprintf (cLibc bumpPick) (State.init 0 w0) largeFmt [Arg.str largeArg]).1 = -1 ∧
      (vasprintf (cLibc bumpPick) (State.init 0 w0) largeFmt [Arg.str largeArg]).2.slot = 0) ∧
    ((vasprintf (cLibc refusePick) (State.init 7 w0) ['f', 'o', 'o'] []).1 = -1 ∧
      (vasprintf (cLibc refusePick) (State.init 7 w0) ['f', 'o', 'o'] []).2.slot = 0) :=
  have hm : (measurePass (cLibc bumpPick) (State.init 0 w0) largeFmt
      [Arg.str largeArg]).ret < 0 := by
    rw [measure_large]
    decide
  have hA := (failure_slot_state (cLibc bumpPick) (State.init 0 w0) largeFmt
    [Arg.str largeArg]).1 hm
  have hB := (failure_slot_state (cLibc refusePick) (State.init 7 w0) ['f', 'o', 'o']
    []).2 (by decide) (by decide)
  ⟨⟨hA.1, hA.2.1⟩, ⟨hB.1, hB.2.1⟩⟩

/-- What is left after failure path C: the output slot still holds the address
of the block that `vasprintf` has released; it is not `NULL`, the block is no
longer live, and its address is the latest release. -/
theorem write_failure_slot_dangles {W A : Type} (L : Libc W A) (st : State W A)
    (fmt : List Char) (ap : List A) (hm : 0 ≤ (measurePass L st fmt ap).ret)
    (ha : (allocation L st fmt ap).1 ≠ 0) (hw : (writePass L st fmt ap).ret < 0) :
    (vasprintf L st fmt ap).1 = -1 ∧
      (vasprintf L st fmt ap).2.slot = (allocation L st fmt ap).1 ∧
      (vasprintf L st fmt ap).2.slot ≠ 0 ∧
      (vasprintf L st fmt ap).2.heap.released = (allocation L st fmt ap).1 :: st.heap.released ∧
      (vasprintf L st fmt ap).2.heap.live = st.heap.live ∧
      (vasprintf L st fmt ap).2.slot ∉ (vasprintf L st fmt ap).2.heap.addrs := by
  obtain ⟨hl, hf, _⟩ := malloc_ok L.pick st.heap (requestSize L st fmt ap) ha
  have hs := store_fresh (allocation L st fmt ap).2 st.heap.live (allocation L st fmt ap).1
    (requestSize L st fmt ap) (writePass L st fmt ap).stored hl hf
  have hfr := free_head _ st.heap.live (allocation L st fmt ap).1 (requestSize L st fmt ap)
    (writePass L st fmt ap).stored hs.1 hf
  rw [vasprintf_write_neg L st fmt ap hm ha hw]
  refine ⟨rfl, rfl, ha, ?_, hfr.1, ?_⟩
  · show (free _ _).released = _
    rw [hfr.2.1, hs.2.2]
    exact congrArg _ (malloc_released _ _ _)
  · show (allocation L st fmt ap).1 ∉ (free _ _).live.map Block.addr
    rw [hfr.1]
    exact hf

/-- Witness of `write_failure_slot_dangles`: a formatter that has one unit of
its internal resource left measures `"foo"` and then fails to write it. -/
theorem write_failure_slot_dangles_witness :
    (vasprintf (budgetLibc bumpPick) (State.init 0 1) ['f', 'o', 'o'] []).1 = -1 ∧
      (vasprintf (budgetLibc bumpPick) (State.init 0 1) ['f', 'o', 'o'] []).2.slot = 1 ∧
      (vasprintf (budgetLibc bumpPick) (State.init 0 1) ['f', 'o', 'o'] []).2.heap.released
        = [1] :=
  have h := write_failure_slot_dangles (budgetLibc bumpPick) (State.init 0 1)
    ['f', 'o', 'o'] [] (by decide) (by decide) (by decide)
  ⟨h.1, h.2.1, h.2.2.2.1⟩

/-- C4, counterexample: the template of test 12 with a string that makes the
text exactly `INT_MAX` characters long.  The measured length is `INT_MAX`,
and the size that `vasprintf` passes to `malloc` is `2^64 - 2^31`, the
wrapped-around value of `size + 1`, not `INT_MAX + 1`. -/
theorem int_max_request_wraps :
    (measurePass (cLibc bumpPick) (State.init 0 w0) largeFmt [Arg.str fillArg]).ret
        = INT_MAX ∧
      (vasprintf (cLibc bumpPick) (State.init 0 w0) largeFmt [Arg.str fillArg]).2.heap.requests
        = [18446744071562067968] ∧
      (18446744071562067968 : Int) ≠ INT_MAX + 1 := by
  have hm := measure_fill bumpPick (State.init 0 w0)
  rw [vasprintf_at_int_max _ _ _ _ hm]
  exact ⟨hm, rfl, by decide⟩

/-- C4, amended: when the measured length is `INT_MAX`, `vasprintf` passes to
the allocator the wrapped-around size `2^64 - 2^31` (there is no overflow
check before the request); that request is refused, so the call returns -1,
the output slot is `NULL`, no block is added or released, and the writing
pass is not run. -/
theorem int_max_fails_by_refusal {W A : Type} (L : Libc W A) (st : State W A)
    (fmt : List Char) (ap : List A) (h : (measurePass L st fmt ap).ret = INT_MAX) :
    (vasprintf L st fmt ap).1 = -1 ∧
      (vasprintf L st fmt ap).2.slot = 0 ∧
      (vasprintf L st fmt ap).2.heap.requests = 18446744071562067968 :: st.heap.requests ∧
      (vasprintf L st fmt ap).2.heap.live = st.heap.live ∧
      (vasprintf L st fmt ap).2.heap.released = st.heap.released ∧
      (vasprintf L st fmt ap).2.calls = measureCall fmt ap :: st.calls := by
  rw [vasprintf_at_int_max L st fmt ap h]
  exact ⟨rfl, rfl, rfl, rfl, rfl, rfl⟩

/-- Witness of C4 amended: the template of test 12 with a string that makes the
text exactly `INT_MAX` characters long. -/
theorem int_max_fails_by_refusal_witness :
    (measurePass (cLibc bumpPick) (State.init 0 w0) largeFmt [Arg.str fillArg]).ret
        = INT_MAX ∧
      (vasprintf (cLibc bumpPick) (State.init 0 w0) largeFmt [Arg.str fillArg]).1 = -1 ∧
      (vasprintf (cLibc bumpPick) (State.init 0 w0) largeFmt [Arg.str fillArg]).2.slot = 0 :=
  have hm := measure_fill bumpPick (State.init 0 w0)
  have h := int_max_fails_by_refusal (cLibc bumpPick) (State.init 0 w0) largeFmt
    [Arg.str fillArg] hm
  ⟨hm, h.1, h.2.1⟩

/-! ## Success under the contract of the primitive -/

/-- A call that reaches the writing pass measured less than `INT_MAX`. -/
theorem measured_lt_max {W A : Type} (L : Libc W A) (st : State W A) (fmt : List Char)
    (ap : List A) (ha : (allocation L st fmt ap).1 ≠ 0) :
    (measurePass L st fmt ap).ret < INT_MAX := by
  have hle := (L.ret_int st.world 0 fmt ap).2
  have hn := (malloc_ok L.pick st.heap (requestSize L st fmt ap) ha).2.2
  by_contra hc
  have he : (measurePass L st fmt ap).ret = INT_MAX :=
    le_antisymm hle (not_lt.mp hc)
  rw [requestSize_at_max L st fmt ap he] at hn
  exact absurd hn (by decide)

/-- With a primitive that follows the contract and renders the same text `t`
in both passes, a call whose allocation succeeds returns the length of `t`
and leaves `t` followed by the terminator in the new block. -/
theorem contract_success {W A : Type} (L : Libc W A)
    (render : W → List Char → List A → Rendering W A)
    (hL : L.vsnprintf = vsnprintfOf render) (st : State W A) (fmt : List Char) (ap : List A)
    (t : List Char) (h1 : (render st.world fmt ap).text = some t)
    (hl : (t.length : Int) ≤ INT_MAX) (ha : (allocation L st fmt ap).1 ≠ 0)
    (h2 : (render (measurePass L st fmt ap).world fmt ap).text = some t) :
    (measurePass L st fmt ap).ret = (t.length : Int) ∧
      requestSize L st fmt ap = t.length + 1 ∧
      (writePass L st fmt ap).ret = (t.length : Int) ∧
      (vasprintf L st fmt ap).1 = (t.length : Int) ∧
      (vasprintf L st fmt ap).2.slot = (allocation L st fmt ap).1 ∧
      (vasprintf L st fmt ap).2.heap.live =
        ⟨(allocation L st fmt ap).1, t.length + 1, t ++ [NUL]⟩ :: st.heap.live ∧
      bufferAt (vasprintf L st fmt ap).2.heap (vasprintf L st fmt ap).2.slot =
        some (t ++ [NUL]) := by
  have hmr : (measurePass L st fmt ap).ret = (t.length : Int) := by
    unfold measurePass
    rw [hL, vsnprintfOf_fits render st.world 0 fmt ap t h1 hl]
  have hlt := measured_lt_max L st fmt ap ha
  have h0 : 0 ≤ (measurePass L st fmt ap).ret := by
    rw [hmr]
    exact Int.natCast_nonneg _
  have hreq : requestSize L st fmt ap = t.length + 1 := by
    rw [requestSize_eq L st fmt ap h0 hlt, hmr]
    omega
  have hwp : writePass L st fmt ap =
      ⟨(t.length : Int), t ++ [NUL], (render (measurePass L st fmt ap).world fmt ap).rest,
        (render (measurePass L st fmt ap).world fmt ap).world⟩ := by
    unfold writePass
    rw [hL, hreq, vsnprintfOf_fits render _ (t.length + 1) fmt ap t h2 hl]
    simp
  have hwr : (writePass L st fmt ap).ret = (t.length : Int) := by rw [hwp]
  have hw0 : 0 ≤ (writePass L st fmt ap).ret := by
    rw [hwr]
    exact Int.natCast_nonneg _
  obtain ⟨hlive, hfresh, _⟩ := malloc_ok L.pick st.heap (requestSize L st fmt ap) ha
  have hs := store_fresh (allocation L st fmt ap).2 st.heap.live (allocation L st fmt ap).1
    (requestSize L st fmt ap) (writePass L st fmt ap).stored hlive hfresh
  have hst : (writePass L st fmt ap).stored = t ++ [NUL] := by rw [hwp]
  rw [hst, hreq] at hs
  rw [vasprintf_write_ok L st fmt ap h0 ha hw0]
  refine ⟨hmr, hreq, hwr, hwr, rfl, ?_, ?_⟩
  · show (store _ _ (writePass L st fmt ap).stored).live = _
    rw [hst]
    exact hs.1
  · show bufferAt (store _ _ (writePass L st fmt ap).stored) _ = _
    rw [hst]
    exact bufferAt_head _ _ _ _ _ hs.1

/-! ## Heap after each path -/

/-- The heap after a successful call: one request more, one live block more
(at the address now in the output slot, holding what the writing pass
stored), nothing released. -/
theorem heap_after_success {W A : Type} (L : Libc W A) (st : State W A) (fmt : List Char)
    (ap : List A) (hm : 0 ≤ (measurePass L st fmt ap).ret)
    (ha : (allocation L st fmt ap).1 ≠ 0) (hw : 0 ≤ (writePass L st fmt ap).ret) :
    (vasprintf L st fmt ap).1 = (writePass L st fmt ap).ret ∧
      (vasprintf L st fmt ap).2.slot = (allocation L st fmt ap).1 ∧
      (vasprintf L st fmt ap).2.heap.live =
        ⟨(allocation L st fmt ap).1, requestSize L st fmt ap, (writePass L st fmt ap).stored⟩
          :: st.heap.live ∧
      (vasprintf L st fmt ap).2.heap.requests = requestSize L st fmt ap :: st.heap.requests ∧
      (vasprintf L st fmt ap).2.heap.released = st.heap.released ∧
      (allocation L st fmt ap).1 ∉ st.heap.addrs := by
  obtain ⟨hl, hf, _⟩ := malloc_ok L.pick st.heap (requestSize L st fmt ap) ha
  have hs := store_fresh (allocation L st fmt ap).2 st.heap.live (allocation L st fmt ap).1
    (requestSize L st fmt ap) (writePass L st fmt ap).stored hl hf
  rw [vasprintf_write_ok L st fmt ap hm ha hw]
  refine ⟨rfl, rfl, hs.1, ?_, ?_, hf⟩
  · show (store _ _ _).requests = _
    rw [hs.2.1]
    exact malloc_requests _ _ _
  · show (store _ _ _).released = _
    rw [hs.2.2]
    exact malloc_released _ _ _

/-- The heap after a call that fails in the writing pass: one request more,
the block released, the live blocks as before. -/
theorem heap_after_write_failure {W A : Type} (L : Libc W A) (st : State W A)
    (fmt : List Char) (ap : List A) (hm : 0 ≤ (measurePass L st fmt ap).ret)
    (ha : (allocation L st fmt ap).1 ≠ 0) (hw : (writePass L st fmt ap).ret < 0) :
    (vasprintf L st fmt ap).1 = -1 ∧
      (vasprintf L st fmt ap).2.heap.live = st.heap.live ∧
      (vasprintf L st fmt ap).2.heap.requests = requestSize L st fmt ap :: st.heap.requests ∧
      (vasprintf L st fmt ap).2.heap.released =
        (allocation L st fmt ap).1 :: st.heap.released := by
  obtain ⟨hl, hf, _⟩ := malloc_ok L.pick st.heap (requestSize L st fmt ap) ha
  have hs := store_fresh (allocation L st fmt ap).2 st.heap.live (allocation L st fmt ap).1
    (requestSize L st fmt ap) (writePass L st fmt ap).stored hl hf
  have hfr := free_head _ st.heap.live (allocation L st fmt ap).1 (requestSize L st fmt ap)
    (writePass L st fmt ap).stored hs.1 hf
  rw [vasprintf_write_neg L st fmt ap hm ha hw]
  refine ⟨rfl, hfr.1, ?_, ?_⟩
  · show (free _ _).requests = _
    rw [hfr.2.2, hs.2.1]
    exact malloc_requests _ _ _
  · show (free _ _).released = _
    rw [hfr.2.1, hs.2.2]
    exact congrArg _ (malloc_released _ _ _)

/-- A call returns a non-negative value only on the success path. -/
theorem success_of_nonneg {W A : Type} (L : Libc W A) (st : State W A) (fmt : List Char)
    (ap : List A) (h : 0 ≤ (vasprintf L st fmt ap).1) :
    0 ≤ (measurePass L st fmt ap).ret ∧ (allocation L st fmt ap).1 ≠ 0 ∧
      0 ≤ (writePass L st fmt ap).ret := by
  by_cases hm : (measurePass L st fmt ap).ret < 0
  · rw [vasprintf_measure_neg L st fmt ap hm] at h
    exact absurd (show (0 : Int) ≤ -1 from h) (by decide)
  · have hm0 := not_lt.mp hm
    by_cases ha : (allocation L st fmt ap).1 = 0
    · rw [vasprintf_alloc_null L st fmt ap hm0 ha] at h
      exact absurd (show (0 : Int) ≤ -1 from h) (by decide)
    · by_cases hw : (writePass L st fmt ap).ret < 0
      · rw [vasprintf_write_neg L st fmt ap hm0 ha hw] at h
        exact absurd (show (0 : Int) ≤ -1 from h) (by decide)
      · exact ⟨hm0, ha, not_lt.mp hw⟩

/-- The live blocks after a failed call are the live blocks before it. -/
theorem live_after_failure {W A : Type} (L : Libc W A) (st : State W A) (fmt : List Char)
    (ap : List A) (h : (vasprintf L st fmt ap).1 < 0) :
    (vasprintf L st fmt ap).2.heap.live = st.heap.live := by
  by_cases hm : (measurePass L st fmt ap).ret < 0
  · rw [vasprintf_measure_neg L st fmt ap hm]
  · have hm0 := not_lt.mp hm
    by_cases ha : (allocation L st fmt ap).1 = 0
    · rw [vasprintf_alloc_null L st fmt ap hm0 ha]
      exact malloc_null _ _ _ ha
    · by_cases hw : (writePass L st fmt ap).ret < 0
      · exact (heap_after_write_failure L st fmt ap hm0 ha hw).2.1
      · have hs := heap_after_success L st fmt ap hm0 ha (not_lt.mp hw)
        rw [hs.1] at h
        exact absurd h hw

/-! ## Allocation accounting -/

/-- C5 (allocation accounting).  A successful call (non-negative result) makes
exactly one request to the allocator, adds exactly one live block, releases
nothing, and the output slot holds the non-null, fresh address of that
block.  A call that fails in the writing pass makes exactly one request and
releases the block it obtained, so the live blocks are those before the
call.  A call that fails at measurement leaves the heap untouched, and one
that fails at allocation leaves the live blocks and the releases untouched.
After every failed call the live blocks are the live blocks before the call. -/
theorem allocation_accounting {W A : Type} (L : Libc W A) (st : State W A)
    (fmt : List Char) (ap : List A) :
    (0 ≤ (vasprintf L st fmt ap).1 →
      (vasprintf L st fmt ap).2.heap.requests = requestSize L st fmt ap :: st.heap.requests ∧
      (vasprintf L st fmt ap).2.heap.released = st.heap.released ∧
      (vasprintf L st fmt ap).2.slot ≠ 0 ∧
      (vasprintf L st fmt ap).2.slot ∉ st.heap.addrs ∧
      ∃ b : Block, b.addr = (vasprintf L st fmt ap).2.slot ∧
        (vasprintf L st fmt ap).2.heap.live = b :: st.heap.live) ∧
    (0 ≤ (measurePass L st fmt ap).ret → (allocation L st fmt ap).1 ≠ 0 →
      (writePass L st fmt ap).ret < 0 →
      (vasprintf L st fmt ap).1 = -1 ∧
      (vasprintf L st fmt ap).2.heap.requests = requestSize L st fmt ap :: st.heap.requests ∧
      (vasprintf L st fmt ap).2.heap.released =
        (allocation L st fmt ap).1 :: st.heap.released ∧
      (vasprintf L st fmt ap).2.heap.live = st.heap.live) ∧
    ((measurePass L st fmt ap).ret < 0 → (vasprintf L st fmt ap).2.heap = st.heap) ∧
    (0 ≤ (measurePass L st fmt ap).ret → (allocation L st fmt ap).1 = 0 →
      (vasprintf L st fmt ap).2.heap.live = st.heap.live ∧
      (vasprintf L st fmt ap).2.heap.released = st.heap.released) ∧
    ((vasprintf L st fmt ap).1 < 0 →
      (vasprintf L st fmt ap).2.heap.live = st.heap.live) := by
  refine ⟨?_, ?_, ?_, ?_, live_after_failure L st fmt ap⟩
  · intro h
    obtain ⟨hm, ha, hw⟩ := success_of_nonneg L st fmt ap h
    have hs := heap_after_success L st fmt ap hm ha hw
    refine ⟨hs.2.2.2.1, hs.2.2.2.2.1, ?_, ?_, ⟨_, ?_, hs.2.2.1⟩⟩
    · rw [hs.2.1]
      exact ha
    · rw [hs.2.1]
      exact hs.2.2.2.2.2
    · exact hs.2.1.symm
  · intro hm ha hw
    have hf := heap_after_write_failure L st fmt ap hm ha hw
    exact ⟨hf.1, hf.2.2.1, hf.2.2.2, hf.2.1⟩
  · intro hm
    rw [vasprintf_measure_neg L st fmt ap hm]
  · intro hm ha
    rw [vasprintf_alloc_null L st fmt ap hm ha]
    exact ⟨malloc_null _ _ _ ha, malloc_released _ _ _⟩

/-- Witness of C5: test 1 of `src/test.c` (`"foo"`, success), and a formatter
that measures `"foo"` and then fails to write it. -/
theorem allocation_accounting_witness :
    ((vasprintf (cLibc bumpPick) (State.init 0 w0) ['f', 'o', 'o'] []).2.heap.requests = [4] ∧
      (vasprintf (cLibc bumpPick) (State.init 0 w0) ['f', 'o', 'o'] []).2.slot ≠ 0) ∧
    ((vasprintf (budgetLibc bumpPick) (State.init 0 1) ['f', 'o', 'o'] []).1 = -1 ∧
      (vasprintf (budgetLibc bumpPick) (State.init 0 1) ['f', 'o', 'o'] []).2.heap.released
        = [1] ∧
      (vasprintf (budgetLibc bumpPick) (State.init 0 1) ['f', 'o', 'o'] []).2.heap.live = []) :=
  have hS := (allocation_accounting (cLibc bumpPick) (State.init 0 w0) ['f', 'o', 'o']
    []).1 (by decide)
  have hC := (allocation_accounting (budgetLibc bumpPick) (State.init 0 1) ['f', 'o', 'o']
    []).2.1 (by decide) (by decide) (by decide)
  ⟨⟨hS.1, hS.2.2.1⟩, ⟨hC.1, hC.2.2.1, hC.2.2.2⟩⟩

/-! ## Round trip and the two-pass protocol -/

/-- A contract primitive that reports a non-negative length has rendered a
text of that length, at most `INT_MAX`. -/
theorem text_of_nonneg {W A : Type} (render : W → List Char → List A → Rendering W A)
    (w : W) (cap : Nat) (fmt : List Char) (ap : List A)
    (h : 0 ≤ (vsnprintfOf render w cap fmt ap).ret) :
    ∃ t, (render w fmt ap).text = some t ∧ (t.length : Int) ≤ INT_MAX := by
  cases ht : (render w fmt ap).text with
  | none =>
    rw [vsnprintfOf_invalid render w cap fmt ap ht] at h
    exact absurd (show (0 : Int) ≤ -1 from h) (by decide)
  | some t =>
    by_cases hl : INT_MAX < (t.length : Int)
    · rw [vsnprintfOf_overflow render w cap fmt ap t ht hl] at h
      exact absurd (show (0 : Int) ≤ -1 from h) (by decide)
    · exact ⟨t, rfl, not_lt.mp hl⟩

/-- C1, counterexample: `asprintf(&p, "%c", 0)`.  The measuring pass reports 1,
allocation succeeds, the call returns 1, the buffer holds two terminators,
and `strlen` of the buffer is 0, not 1. -/
theorem char_zero_breaks_strlen :
    (measurePass (cLibc bumpPick) (State.init 0 w0) ['%', 'c'] [Arg.int 0]).ret = 1 ∧
      (asprintf (cLibc bumpPick) (State.init 0 w0) ['%', 'c'] [Arg.int 0]).1 = 1 ∧
      (asprintf (cLibc bumpPick) (State.init 0 w0) ['%', 'c'] [Arg.int 0]).2.slot = 1 ∧
      bufferAt (asprintf (cLibc bumpPick) (State.init 0 w0) ['%', 'c'] [Arg.int 0]).2.heap 1
        = some [NUL, NUL] ∧
      strlen [NUL, NUL] = some 0 := by
  decide

/-- C1, amended: with a primitive that follows the contract, for every template
and argument list for which the measuring pass reports a non-negative length,
allocation succeeds and the writing pass renders the text that was measured,
`vasprintf` and `asprintf` return the length `n` of that text, the buffer in
the output slot is the text followed by the terminator, so the byte at index
`n` is the terminator, and `strlen` of the buffer is `n` whenever the text
contains no terminator character. -/
theorem round_trip_length {W A : Type} (render : W → List Char → List A → Rendering W A)
    (pick : Heap → Nat → Option Nat) (st : State W A) (fmt : List Char) (ap : List A)
    (hm : 0 ≤ (measurePass (libcOf render pick) st fmt ap).ret)
    (ha : (allocation (libcOf render pick) st fmt ap).1 ≠ 0)
    (hsame : (render (measurePass (libcOf render pick) st fmt ap).world fmt ap).text =
      (render st.world fmt ap).text) :
    ∃ t b, (render st.world fmt ap).text = some t ∧
      (vasprintf (libcOf render pick) st fmt ap).1 = (t.length : Int) ∧
      (asprintf (libcOf render pick) st fmt ap).1 = (t.length : Int) ∧
      bufferAt (vasprintf (libcOf render pick) st fmt ap).2.heap
        (vasprintf (libcOf render pick) st fmt ap).2.slot = some b ∧
      b = t ++ [NUL] ∧ b[t.length]? = some NUL ∧
      (NUL ∉ t → strlen b = some t.length) := by
  obtain ⟨t, ht, hl⟩ := text_of_nonneg render st.world 0 fmt ap hm
  have hc := contract_success (libcOf render pick) render rfl st fmt ap t ht hl ha
    (by rw [hsame, ht])
  exact ⟨t, t ++ [NUL], ht, hc.2.2.2.1, hc.2.2.2.1, hc.2.2.2.2.2.2, rfl, terminator_at t,
    strlen_terminated t⟩

/-- Witness of C1 amended: test 10 of `src/test.c`, `asprintf(&str, "%s", "St.ing")`:
the result is 6, the byte at index 6 of the buffer is the terminator, and
`strlen` of the buffer is 6. -/
theorem round_trip_length_witness :
    (asprintf (libcOf cRender bumpPick) (State.init 0 w0) ['%', 's']
        [Arg.str "St.ing".toList]).1 = 6 ∧
      ∃ b, bufferAt (vasprintf (libcOf cRender bumpPick) (State.init 0 w0) ['%', 's']
          [Arg.str "St.ing".toList]).2.heap
          (vasprintf (libcOf cRender bumpPick) (State.init 0 w0) ['%', 's']
          [Arg.str "St.ing".toList]).2.slot = some b ∧
        b[6]? = some NUL ∧ strlen b = some 6 := by
  obtain ⟨t, b, ht, _, hret, hbuf, _, hidx, hlen⟩ :=
    round_trip_length cRender bumpPick (State.init 0 w0) ['%', 's'] [Arg.str "St.ing".toList]
      (by decide) (by decide) (by decide)
  have ht' : t = "St.ing".toList := by
    have e : (cRender (State.init 0 w0 : State World Arg).world ['%', 's']
        [Arg.str "St.ing".toList]).text = some "St.ing".toList := by decide
    rw [e] at ht
    exact (Option.some.inj ht).symm
  subst ht'
  exact ⟨hret, b, hbuf, hidx, hlen (by decide)⟩

/-- C10 (two-pass protocol).  On every call that reaches the writing pass (the
measuring pass reported a non-negative length and `malloc` returned a
buffer): the size requested from the allocator and the capacity declared to
the writing pass are the same number, exactly the measured length plus 1;
the calls of `vsnprintf` recorded are the measuring call with capacity 0 and
then the writing call on the new buffer, both with the same template and the
same argument list, whole; and with a primitive that follows the contract and
renders the same text in both passes, the count returned equals the measured
length and the buffer holds the whole text followed by the terminator (no
truncation). -/
theorem two_pass_protocol {W A : Type} (L : Libc W A) (st : State W A) (fmt : List Char)
    (ap : List A) (hm : 0 ≤ (measurePass L st fmt ap).ret)
    (ha : (allocation L st fmt ap).1 ≠ 0) :
    ((requestSize L st fmt ap : Nat) : Int) = (measurePass L st fmt ap).ret + 1 ∧
      (vasprintf L st fmt ap).2.heap.requests = requestSize L st fmt ap :: st.heap.requests ∧
      (vasprintf L st fmt ap).2.calls =
        ⟨(allocation L st fmt ap).1, requestSize L st fmt ap, fmt, ap⟩ ::
          ⟨0, 0, fmt, ap⟩ :: st.calls ∧
      (∀ (render : W → List Char → List A → Rendering W A) (t : List Char),
        L.vsnprintf = vsnprintfOf render →
        (render st.world fmt ap).text = some t →
        (render (measurePass L st fmt ap).world fmt ap).text = some t →
        (vasprintf L st fmt ap).1 = (measurePass L st fmt ap).ret ∧
        (measurePass L st fmt ap).ret = (t.length : Int) ∧
        bufferAt (vasprintf L st fmt ap).2.heap (vasprintf L st fmt ap).2.slot =
          some (t ++ [NUL])) := by
  have hlt := measured_lt_max L st fmt ap ha
  refine ⟨?_, ?_, ?_, ?_⟩
  · rw [requestSize_eq L st fmt ap hm hlt]
    omega
  · by_cases hw : (writePass L st fmt ap).ret < 0
    · exact (heap_after_write_failure L st fmt ap hm ha hw).2.2.1
    · exact (heap_after_success L st fmt ap hm ha (not_lt.mp hw)).2.2.2.1
  · by_cases hw : (writePass L st fmt ap).ret < 0
    · rw [vasprintf_write_neg L st fmt ap hm ha hw]
      rfl
    · rw [vasprintf_write_ok L st fmt ap hm ha (not_lt.mp hw)]
      rfl
  · intro render t hL h1 h2
    have hl : (t.length : Int) ≤ INT_MAX := by
      have hr := (L.ret_int st.world 0 fmt ap).2
      have hfit : 0 ≤ (vsnprintfOf render st.world 0 fmt ap).ret := by
        rw [← hL]
        exact hm
      obtain ⟨t', ht', hl'⟩ := text_of_nonneg render st.world 0 fmt ap hfit
      rw [h1] at ht'
      cases ht'
      exact hl'
    have hc := contract_success L render hL st fmt ap t h1 hl ha h2
    exact ⟨hc.2.2.2.1.trans hc.1.symm, hc.1, hc.2.2.2.2.2.2⟩

/-- Witness of C10: test 3 of `src/test.c`, `asprintf(&str, "%d %s", 10, "Test")`:
capacity and request are 8, the measured length 7 plus 1. -/
theorem two_pass_protocol_witness :
    ((requestSize (cLibc bumpPick) (State.init 0 w0) ['%', 'd', ' ', '%', 's']
        [Arg.int 10, Arg.str "Test".toList] : Nat) : Int) =
      (measurePass (cLibc bumpPick) (State.init 0 w0) ['%', 'd', ' ', '%', 's']
        [Arg.int 10, Arg.str "Test".toList]).ret + 1 ∧
    (vasprintf (cLibc bumpPick) (State.init 0 w0) ['%', 'd', ' ', '%', 's']
        [Arg.int 10, Arg.str "Test".toList]).2.heap.requests = [8] :=
  have h := two_pass_protocol (cLibc bumpPick) (State.init 0 w0) ['%', 'd', ' ', '%', 's']
    [Arg.int 10, Arg.str "Test".toList] (by decide) (by decide)
  ⟨h.1, h.2.1⟩

/-! ## Determinism -/

/-- C8 (determinism).  Let `R` relate two environments on which the primitive,
for this template and these arguments, returns the same value, stores the
same bytes and leaves related environments (equality is such a relation for
every primitive; the full relation is one for a primitive whose output does
not depend on the environment).  Two calls with the same template and equal
argument lists, from any two states with related environments (whatever
their output slots, heaps and earlier calls) and with the same allocator
outcome, return equal counts, leave related environments, and on success
leave byte-identical buffers in their output slots. -/
theorem determinism {W A : Type} (L : Libc W A) (R : W → W → Prop) (fmt : List Char)
    (ap ap' : List A) (hap : ap = ap')
    (hR : ∀ w w' cap, R w w' →
      (L.vsnprintf w cap fmt ap).ret = (L.vsnprintf w' cap fmt ap).ret ∧
      (L.vsnprintf w cap fmt ap).stored = (L.vsnprintf w' cap fmt ap).stored ∧
      R (L.vsnprintf w cap fmt ap).world (L.vsnprintf w' cap fmt ap).world)
    (st st' : State W A) (hw : R st.world st'.world)
    (halloc : (allocation L st fmt ap).1 = 0 ↔ (allocation L st' fmt ap').1 = 0) :
    (vasprintf L st fmt ap).1 = (vasprintf L st' fmt ap').1 ∧
      R (vasprintf L st fmt ap).2.world (vasprintf L st' fmt ap').2.world ∧
      (0 ≤ (vasprintf L st fmt ap).1 →
        ∃ out,
          bufferAt (vasprintf L st fmt ap).2.heap (vasprintf L st fmt ap).2.slot = some out ∧
          bufferAt (vasprintf L st' fmt ap').2.heap (vasprintf L st' fmt ap').2.slot
            = some out) := by
  subst hap
  have hmm := hR st.world st'.world 0 hw
  have hmr : (measurePass L st fmt ap).ret = (measurePass L st' fmt ap).ret := hmm.1
  have hmw : R (measurePass L st fmt ap).world (measurePass L st' fmt ap).world := hmm.2.2
  have hreq : requestSize L st fmt ap = requestSize L st' fmt ap := by
    unfold requestSize
    rw [hmr]
  have hww := hR _ _ (requestSize L st fmt ap) hmw
  have hwr : (writePass L st fmt ap).ret = (writePass L st' fmt ap).ret := by
    unfold writePass
    rw [← hreq]
    exact hww.1
  have hws : (writePass L st fmt ap).stored = (writePass L st' fmt ap).stored := by
    unfold writePass
    rw [← hreq]
    exact hww.2.1
  have hwworld : R (writePass L st fmt ap).world (writePass L st' fmt ap).world := by
    unfold writePass
    rw [← hreq]
    exact hww.2.2
  by_cases hm : (measurePass L st fmt ap).ret < 0
  · have hm' : (measurePass L st' fmt ap).ret < 0 := hmr ▸ hm
    rw [vasprintf_measure_neg L st fmt ap hm, vasprintf_measure_neg L st' fmt ap hm']
    exact ⟨rfl, hmw, fun h => absurd (show (0 : Int) ≤ -1 from h) (by decide)⟩
  · have hm0 := not_lt.mp hm
    have hm0' : 0 ≤ (measurePass L st' fmt ap).ret := hmr ▸ hm0
    by_cases ha : (allocation L st fmt ap).1 = 0
    · have ha' := halloc.mp ha
      rw [vasprintf_alloc_null L st fmt ap hm0 ha, vasprintf_alloc_null L st' fmt ap hm0' ha']
      exact ⟨rfl, hmw, fun h => absurd (show (0 : Int) ≤ -1 from h) (by decide)⟩
    · have ha' : (allocation L st' fmt ap).1 ≠ 0 := fun h => ha (halloc.mpr h)
      by_cases hwn : (writePass L st fmt ap).ret < 0
      · have hwn' : (writePass L st' fmt ap).ret < 0 := hwr ▸ hwn
        rw [vasprintf_write_neg L st fmt ap hm0 ha hwn,
          vasprintf_write_neg L st' fmt ap hm0' ha' hwn']
        exact ⟨rfl, hwworld, fun h => absurd (show (0 : Int) ≤ -1 from h) (by decide)⟩
      · have hw0 := not_lt.mp hwn
        have hw0' : 0 ≤ (writePass L st' fmt ap).ret := hwr ▸ hw0
        have hs := heap_after_success L st fmt ap hm0 ha hw0
        have hs' := heap_after_success L st' fmt ap hm0' ha' hw0'
        refine ⟨by rw [hs.1, hs'.1, hwr], ?_, fun _ => ⟨(writePass L st fmt ap).stored, ?_, ?_⟩⟩
        · rw [vasprintf_write_ok L st fmt ap hm0 ha hw0,
            vasprintf_write_ok L st' fmt ap hm0' ha' hw0']
          exact hwworld
        · rw [hs.2.1]
          exact bufferAt_head _ _ _ _ _ hs.2.2.1
        · rw [hs'.2.1, hws]
          exact bufferAt_head _ _ _ _ _ hs'.2.2.1

/-- What the fragment primitive does for `"%d %s"` with 10 and `"Test"`, in
every environment. -/
theorem cLibc_ten_test (pick : Heap → Nat → Option Nat) (w : World) (cap : Nat) :
    (cLibc pick).vsnprintf w cap ['%', 'd', ' ', '%', 's'] [Arg.int 10, Arg.str "Test".toList] =
      ⟨7, if cap = 0 then [] else ("10 Test".toList).take (cap - 1) ++ [NUL], [], w⟩ := by
  have e : (cLibc pick).vsnprintf = vsnprintfOf cRender := rfl
  rw [e, vsnprintfOf_fits cRender w cap _ _ (decimal 10 ++ ' ' :: "Test".toList)
    (by rw [cRender_d_s]) (by decide), cRender_d_s]
  rfl

/-- Witness of C8: test 3 of `src/test.c` called twice in sequence: the second
call starts from the state the first call left (output slot set, one live
block), and returns the same count and the same bytes. -/
theorem determinism_witness :
    (vasprintf (cLibc bumpPick) (State.init 0 w0) ['%', 'd', ' ', '%', 's']
        [Arg.int 10, Arg.str "Test".toList]).1 =
      (vasprintf (cLibc bumpPick)
        (vasprintf (cLibc bumpPick) (State.init 0 w0) ['%', 'd', ' ', '%', 's']
          [Arg.int 10, Arg.str "Test".toList]).2
        ['%', 'd', ' ', '%', 's'] [Arg.int 10, Arg.str "Test".toList]).1 :=
  (determinism (cLibc bumpPick) (fun _ _ => True) ['%', 'd', ' ', '%', 's']
    [Arg.int 10, Arg.str "Test".toList] [Arg.int 10, Arg.str "Test".toList] rfl
    (fun w w' cap _ => by
      rw [cLibc_ten_test bumpPick w cap, cLibc_ten_test bumpPick w' cap]
      exact ⟨rfl, rfl, trivial⟩)
    (State.init 0 w0)
    (vasprintf (cLibc bumpPick) (State.init 0 w0) ['%', 'd', ' ', '%', 's']
      [Arg.int 10, Arg.str "Test".toList]).2
    trivial (by decide)).1

/-! ## What the fragment renders: literal text, `%d %s`, `%n` -/

theorem vsnprintfOf_world {W A : Type} (render : W → List Char → List A → Rendering W A)
    (w : W) (cap : Nat) (fmt : List Char) (ap : List A) :
    (vsnprintfOf render w cap fmt ap).world = (render w fmt ap).world := by
  unfold vsnprintfOf
  simp only
  split
  · rfl
  · split <;> rfl

/-- C6, counterexample: a template of `INT_MAX + 1` characters `'A'`, without
any directive, and an allocator that grants every request.  `asprintf`
returns -1, not the length of the template; the allocator is not even asked. -/
theorem huge_literal_fails :
    '%' ∉ hugeFmt ∧ hugeFmt.length = 2147483648 ∧
      (asprintf (cLibc bumpPick) (State.init 0 w0) hugeFmt []).1 = -1 ∧
      (asprintf (cLibc bumpPick) (State.init 0 w0) hugeFmt []).2.heap.requests = [] := by
  have hm : (measurePass (cLibc bumpPick) (State.init 0 w0) hugeFmt []).ret < 0 := by
    rw [measure_huge]
    decide
  rw [asprintf_eq_vasprintf, vasprintf_measure_neg _ _ _ _ hm]
  exact ⟨hugeFmt_no_pct, hugeFmt_length, rfl, rfl⟩

/-- C6, amended (literal passthrough): for every template without `%` whose
length is representable as an `int`, the empty template included, `asprintf`
with no further argument, when the allocation succeeds, returns the length of
the template, and the buffer in the output slot is the template followed by
the terminator. -/
theorem literal_passthrough (pick : Heap → Nat → Option Nat) (st : State World Arg)
    (fmt : List Char) (hpct : '%' ∉ fmt) (hlen : (fmt.length : Int) ≤ INT_MAX)
    (ha : (allocation (cLibc pick) st fmt []).1 ≠ 0) :
    (asprintf (cLibc pick) st fmt []).1 = (fmt.length : Int) ∧
      (asprintf (cLibc pick) st fmt []).2.slot ≠ 0 ∧
      bufferAt (asprintf (cLibc pick) st fmt []).2.heap (asprintf (cLibc pick) st fmt []).2.slot
        = some (fmt ++ [NUL]) := by
  have hc := contract_success (cLibc pick) cRender rfl st fmt [] fmt
    (by rw [cRender_literal _ _ _ hpct]) hlen ha (by rw [cRender_literal _ _ _ hpct])
  rw [asprintf_eq_vasprintf]
  refine ⟨hc.2.2.2.1, ?_, hc.2.2.2.2.2.2⟩
  rw [hc.2.2.2.2.1]
  exact ha

/-- Witness of C6 amended: test 9 of `src/test.c`, the empty template: the
result is 0 and the buffer holds the terminator alone. -/
theorem literal_passthrough_witness :
    (asprintf (cLibc bumpPick) (State.init 0 w0) [] []).1 = 0 ∧
      (asprintf (cLibc bumpPick) (State.init 0 w0) [] []).2.slot ≠ 0 ∧
      bufferAt (asprintf (cLibc bumpPick) (State.init 0 w0) [] []).2.heap
        (asprintf (cLibc bumpPick) (State.init 0 w0) [] []).2.slot = some [NUL] :=
  literal_passthrough bumpPick (State.init 0 w0) [] (by decide) (by decide) (by decide)

/-- C7 (integer and string substitution): for every integer `n` and every
string `s` such that the length of the result is representable as an `int`,
when the allocation succeeds `asprintf(&p, "%d %s", n, s)` returns the length
of the result, which is positive, and the buffer in the output slot is the
signed decimal rendering of `n`, one space, `s`, and the terminator.  In
particular for `(10, "Test")` it returns 7 and the buffer is `"10 Test"`. -/
theorem int_and_string_substitution :
    (∀ (pick : Heap → Nat → Option Nat) (st : State World Arg) (n : Int) (s : List Char),
      ((decimal n ++ ' ' :: s).length : Int) ≤ INT_MAX →
      (allocation (cLibc pick) st ['%', 'd', ' ', '%', 's'] [Arg.int n, Arg.str s]).1 ≠ 0 →
      (asprintf (cLibc pick) st ['%', 'd', ' ', '%', 's'] [Arg.int n, Arg.str s]).1 =
        ((decimal n ++ ' ' :: s).length : Int) ∧
      0 < (asprintf (cLibc pick) st ['%', 'd', ' ', '%', 's'] [Arg.int n, Arg.str s]).1 ∧
      bufferAt (asprintf (cLibc pick) st ['%', 'd', ' ', '%', 's'] [Arg.int n, Arg.str s]).2.heap
        (asprintf (cLibc pick) st ['%', 'd', ' ', '%', 's'] [Arg.int n, Arg.str s]).2.slot =
        some (decimal n ++ ' ' :: s ++ [NUL])) ∧
    ((asprintf (cLibc bumpPick) (State.init 0 w0) "%d %s".toList
        [Arg.int 10, Arg.str "Test".toList]).1 = 7 ∧
      bufferAt (asprintf (cLibc bumpPick) (State.init 0 w0) "%d %s".toList
        [Arg.int 10, Arg.str "Test".toList]).2.heap
        (asprintf (cLibc bumpPick) (State.init 0 w0) "%d %s".toList
        [Arg.int 10, Arg.str "Test".toList]).2.slot = some ("10 Test".toList ++ [NUL])) := by
  constructor
  · intro pick st n s hlen ha
    have hc := contract_success (cLibc pick) cRender rfl st ['%', 'd', ' ', '%', 's']
      [Arg.int n, Arg.str s] (decimal n ++ ' ' :: s) (by rw [cRender_d_s]) hlen ha
      (by rw [cRender_d_s])
    rw [asprintf_eq_vasprintf]
    refine ⟨hc.2.2.2.1, ?_, ?_⟩
    · rw [hc.2.2.2.1]
      have : 0 < (decimal n ++ ' ' :: s).length := by simp
      exact_mod_cast this
    · have := hc.2.2.2.2.2.2
      simpa using this
  · decide

/-- Witness of C7: `asprintf(&p, "%d %s", -42, "x")` gives `"-42 x"`, 5 characters. -/
theorem int_and_string_substitution_witness :
    (asprintf (cLibc bumpPick) (State.init 0 w0) ['%', 'd', ' ', '%', 's']
        [Arg.int (-42), Arg.str ['x']]).1 = 5 ∧
      bufferAt (asprintf (cLibc bumpPick) (State.init 0 w0) ['%', 'd', ' ', '%', 's']
        [Arg.int (-42), Arg.str ['x']]).2.heap
        (asprintf (cLibc bumpPick) (State.init 0 w0) ['%', 'd', ' ', '%', 's']
        [Arg.int (-42), Arg.str ['x']]).2.slot = some ['-', '4', '2', ' ', 'x', NUL] :=
  have h := int_and_string_substitution.1 bumpPick (State.init 0 w0) (-42) ['x']
    (by decide) (by decide)
  ⟨h.1, h.2.2⟩

/-- C9 (store-count directive): for a template made of literal text without `%`
followed by a final `%n` whose argument points to the caller's `int` variable
`i`, after a successful `asprintf` that variable equals the returned count,
which is the length of the literal text; the measuring pass had already
stored that same value, and the writing pass stored it again. -/
theorem store_count_directive (pick : Heap → Nat → Option Nat) (st : State World Arg)
    (lit : List Char) (i : Nat) (hpct : '%' ∉ lit)
    (hok : 0 ≤ (asprintf (cLibc pick) st (lit ++ ['%', 'n']) [Arg.intPtr i]).1) :
    (asprintf (cLibc pick) st (lit ++ ['%', 'n']) [Arg.intPtr i]).2.world i =
        (asprintf (cLibc pick) st (lit ++ ['%', 'n']) [Arg.intPtr i]).1 ∧
      (asprintf (cLibc pick) st (lit ++ ['%', 'n']) [Arg.intPtr i]).1 = (lit.length : Int) ∧
      (measurePass (cLibc pick) st (lit ++ ['%', 'n']) [Arg.intPtr i]).world i =
        (lit.length : Int) ∧
      (writePass (cLibc pick) st (lit ++ ['%', 'n']) [Arg.intPtr i]).world i =
        (lit.length : Int) := by
  rw [asprintf_eq_vasprintf] at hok ⊢
  obtain ⟨hm, ha, hw⟩ := success_of_nonneg _ _ _ _ hok
  obtain ⟨t, ht, hl⟩ := text_of_nonneg cRender st.world 0 _ _ hm
  rw [cRender_literal_n _ _ _ hpct] at ht
  cases ht
  have hc := contract_success (cLibc pick) cRender rfl st (lit ++ ['%', 'n']) [Arg.intPtr i]
    lit (by rw [cRender_literal_n _ _ _ hpct]) hl ha (by rw [cRender_literal_n _ _ _ hpct])
  have hwrap : wrapInt (lit.length : Int) = (lit.length : Int) :=
    wrapInt_of_range _ (by unfold INT_MIN; omega) hl
  have hmw : (measurePass (cLibc pick) st (lit ++ ['%', 'n']) [Arg.intPtr i]).world i =
      (lit.length : Int) := by
    unfold measurePass
    have e : (cLibc pick).vsnprintf = vsnprintfOf cRender := rfl
    rw [e, vsnprintfOf_world, cRender_literal_n _ _ _ hpct]
    simp [setInt, hwrap]
  have hww : (writePass (cLibc pick) st (lit ++ ['%', 'n']) [Arg.intPtr i]).world i =
      (lit.length : Int) := by
    unfold writePass
    have e : (cLibc pick).vsnprintf = vsnprintfOf cRender := rfl
    rw [e, vsnprintfOf_world, cRender_literal_n _ _ _ hpct]
    simp [setInt, hwrap]
  refine ⟨?_, hc.2.2.2.1, hmw, hww⟩
  rw [hc.2.2.2.1, vasprintf_write_ok _ _ _ _ hm ha hw]
  exact hww

/-- Witness of C9: test 29 of `src/test.c`, `asprintf(&str, "Chars written: %n", &chars)`:
the result is 15 and `chars` is 15. -/
theorem store_count_directive_witness :
    (asprintf (cLibc bumpPick) (State.init 0 w0) ("Chars written: ".toList ++ ['%', 'n'])
        [Arg.intPtr 0]).2.world 0 = 15 ∧
      (asprintf (cLibc bumpPick) (State.init 0 w0) ("Chars written: ".toList ++ ['%', 'n'])
        [Arg.intPtr 0]).1 = 15 :=
  have h := store_count_directive bumpPick (State.init 0 w0) "Chars written: ".toList 0
    (by decide) (by decide)
  ⟨h.1.trans h.2.1, h.2.1⟩

end Asprintf
